import Mathlib

/-!
Verification of the arpc datagram RPC runtime core against its specification.

The development shallowly embeds the Go sources:
* the frame codec (`parseFramedRequest`, `frameResponse` from the `rpc` package),
* the server dispatch loop (`Server.Start`, `Server.RegisterService`),
* the address resolver (`Resolver.ResolveUDPTarget` from the `balancer` package).

Go byte slices and Go strings are both modelled as `List Nat` (a Go string is an
immutable byte sequence; no byte-range invariant is needed by any theorem, so the
bytes are left unconstrained). Machine integers are modelled as `Nat` with explicit
`% 2 ^ 16` where the Go code performs a `uint16` conversion. Fallible operations
return `Option` or `Except`; a Go runtime panic (slice bounds out of range) is
modelled as `none`, distinct from an error value, because the panicking function
has no non-nil error return path.
-/

/-! ## Frame codec (rpc package, `parseFramedRequest` / `frameResponse`) -/

/-- Reads a little-endian `uint16` from the first two bytes of a byte suffix.
This models Go `binary.LittleEndian.Uint16(data[offset:])`; callers guard the
two-byte bound (Go panics below two bytes, the default branch is unreachable
under the guard). -/
def uint16LE : List Nat → Nat
  | b0 :: b1 :: _ => b0 + 256 * b1
  | _ => 0

/-- Little-endian encoding of `uint16 n`, as written by Go
`binary.Write(buf, binary.LittleEndian, uint16(n))`. The Go conversion
`uint16(n)` truncates to `n % 2 ^ 16`, whose low byte is `n % 256` and whose
high byte is `n / 256 % 256`. -/
def putUint16LE (n : Nat) : List Nat :=
  [n % 256, n / 256 % 256]

/-- One length-prefixed segment read of `parseFramedRequest`: a two-byte LE
length, that many bytes of content, and the remaining suffix. In the Go source
the remaining suffix is `data[offset:]` for the running `offset`; `none` models
the Go slice-bounds panic raised when a read runs past the end of the buffer
(the function never returns a non-nil error). -/
def readSegment (data : List Nat) : Option (List Nat × List Nat) :=
  if 2 ≤ data.length then
    if 2 + uint16LE data ≤ data.length then
      some ((data.drop 2).take (uint16LE data), data.drop (2 + uint16LE data))
    else none
  else none

/-- Embeds `parseFramedRequest` (rpc package): service, method and header
segments are read as consecutive length-prefixed segments and the remaining
bytes are the payload. The Go function's `error` result is always `nil`; a
malformed buffer makes it panic with a slice-bounds error, modelled by `none`. -/
def parseFramedRequest (data : List Nat) :
    Option (List Nat × List Nat × List Nat × List Nat) :=
  match readSegment data with
  | none => none
  | some (service, r1) =>
    match readSegment r1 with
    | none => none
    | some (method, r2) =>
      match readSegment r2 with
      | none => none
      | some (headers, payload) => some (service, method, headers, payload)

/-- Embeds `frameResponse` (rpc package): each of service, method, headers is
written as a `uint16(len)` little-endian prefix followed by the bytes, then the
payload bytes follow. `bytes.Buffer` writes never fail, so the Go function's
error result is always `nil` and the embedding is a total function. -/
def frameResponse (service method headers payload : List Nat) : List Nat :=
  putUint16LE service.length ++ service ++
  putUint16LE method.length ++ method ++
  putUint16LE headers.length ++ headers ++ payload

lemma uint16LE_put (n : Nat) (rest : List Nat) :
    uint16LE (putUint16LE n ++ rest) = n % 65536 := by
  simp only [putUint16LE, List.cons_append, List.nil_append, uint16LE]
  omega

lemma length_putUint16LE (n : Nat) : (putUint16LE n).length = 2 := rfl

/-- Reading a segment from a correctly length-prefixed encoding recovers the
content and the suffix, provided the content fits the two-byte length field. -/
lemma readSegment_encode (s rest : List Nat) (h : s.length < 65536) :
    readSegment (putUint16LE s.length ++ (s ++ rest)) = some (s, rest) := by
  have hu : uint16LE (putUint16LE s.length ++ (s ++ rest)) = s.length := by
    rw [uint16LE_put]; omega
  have hlen : (putUint16LE s.length ++ (s ++ rest)).length
      = 2 + s.length + rest.length := by
    simp [putUint16LE]; omega
  have hdrop2 : (putUint16LE s.length ++ (s ++ rest)).drop 2 = s ++ rest :=
    List.drop_left' (length_putUint16LE _)
  have hdropAll : (putUint16LE s.length ++ (s ++ rest)).drop (2 + s.length) = rest := by
    rw [show putUint16LE s.length ++ (s ++ rest)
          = (putUint16LE s.length ++ s) ++ rest from (List.append_assoc _ _ _).symm]
    exact List.drop_left' (by simp [putUint16LE]; omega)
  unfold readSegment
  rw [hu, if_pos (by omega), if_pos (by omega), hdrop2, hdropAll,
    List.take_left' rfl]

/-- C1. Frame round-trip: decoding the frame produced by the frame encoder
yields the same service, method, headers and payload back, whenever service,
method and headers each fit the 16-bit length field (at most 65535 bytes). -/
theorem frame_roundtrip (s m h p : List Nat)
    (hs : s.length ≤ 65535) (hm : m.length ≤ 65535) (hh : h.length ≤ 65535) :
    parseFramedRequest (frameResponse s m h p) = some (s, m, h, p) := by
  have e1 := readSegment_encode s
    (putUint16LE m.length ++ (m ++ (putUint16LE h.length ++ (h ++ p)))) (by omega)
  have e2 := readSegment_encode m (putUint16LE h.length ++ (h ++ p)) (by omega)
  have e3 := readSegment_encode h p (by omega)
  simp only [frameResponse, parseFramedRequest, List.append_assoc] at *
  simp only [e1, e2, e3]

/-- C1 witness: the round-trip evaluated at a concrete frame. -/
theorem frame_roundtrip_witness :
    ([1, 2] : List Nat).length ≤ 65535 ∧
    parseFramedRequest (frameResponse [1, 2] [3] [4, 5, 6] [7, 8])
      = some ([1, 2], [3], [4, 5, 6], [7, 8]) :=
  ⟨by decide,
    frame_roundtrip [1, 2] [3] [4, 5, 6] [7, 8] (by decide) (by decide) (by decide)⟩

/-- A successful parse factors through three successful segment reads, and the
first two components are the first two segment contents. -/
lemma parse_some_segments {data a b c d : List Nat}
    (hp : parseFramedRequest data = some (a, b, c, d)) :
    ∃ r1 r2, readSegment data = some (a, r1) ∧ readSegment r1 = some (b, r2) ∧
      readSegment r2 = some (c, d) := by
  unfold parseFramedRequest at hp
  cases h1 : readSegment data with
  | none => simp only [h1] at hp; exact Option.noConfusion hp
  | some x =>
    obtain ⟨a', r1⟩ := x
    simp only [h1] at hp
    cases h2 : readSegment r1 with
    | none => simp only [h2] at hp; exact Option.noConfusion hp
    | some y =>
      obtain ⟨b', r2⟩ := y
      simp only [h2] at hp
      cases h3 : readSegment r2 with
      | none => simp only [h3] at hp; exact Option.noConfusion hp
      | some z =>
        obtain ⟨c', d'⟩ := z
        simp only [h3, Option.some.injEq, Prod.mk.injEq] at hp
        obtain ⟨ha, hb, hc, hd⟩ := hp
        subst ha; subst hb; subst hc; subst hd
        exact ⟨r1, r2, rfl, h2, h3⟩

/-- A successful segment read returns content whose length is exactly the
two-byte length prefix. -/
lemma readSegment_some_length {data a r : List Nat}
    (h : readSegment data = some (a, r)) : a.length = uint16LE data := by
  unfold readSegment at h
  split at h
  · split at h
    · simp only [Option.some.injEq, Prod.mk.injEq] at h
      obtain ⟨ha, _⟩ := h
      subst ha
      simp only [List.length_take, List.length_drop]
      omega
    · cases h
  · cases h

/-- C9. An over-long name is silently truncated at the encoder: when the
service or method name exceeds 65535 bytes, `frameResponse` still succeeds, its
length prefix holds the length modulo `2 ^ 16` (shown for the leading service
prefix), and the frame no longer round-trips through `parseFramedRequest`. -/
theorem frame_overlong_name_truncates (s m h p : List Nat)
    (hbig : 65535 < s.length ∨ 65535 < m.length) :
    uint16LE (frameResponse s m h p) = s.length % 65536 ∧
    parseFramedRequest (frameResponse s m h p) ≠ some (s, m, h, p) := by
  have hpre : uint16LE (frameResponse s m h p) = s.length % 65536 := by
    simp only [frameResponse, List.append_assoc]
    exact uint16LE_put _ _
  refine ⟨hpre, fun hp => ?_⟩
  obtain ⟨r1, r2, h1, h2, _⟩ := parse_some_segments hp
  by_cases hsmall : s.length < 65536
  · have hm : 65535 < m.length := by
      rcases hbig with hb | hb
      · omega
      · exact hb
    have henc := readSegment_encode s
      (putUint16LE m.length ++ (m ++ (putUint16LE h.length ++ (h ++ p)))) hsmall
    have h1' : readSegment (frameResponse s m h p)
        = some (s, putUint16LE m.length ++ (m ++ (putUint16LE h.length ++ (h ++ p)))) := by
      simpa only [frameResponse, List.append_assoc] using henc
    rw [h1'] at h1
    simp only [Option.some.injEq, Prod.mk.injEq] at h1
    obtain ⟨_, hr1⟩ := h1
    have hlen := readSegment_some_length h2
    rw [← hr1, uint16LE_put] at hlen
    omega
  · have hlen := readSegment_some_length h1
    rw [hpre] at hlen
    omega

/-- C9 witness: a 65536-byte service name is framed with a zero length prefix
and fails to round-trip. -/
theorem frame_overlong_name_truncates_witness :
    uint16LE (frameResponse (List.replicate 65536 0) [1] [] [])
      = (List.replicate 65536 (0 : Nat)).length % 65536 ∧
    parseFramedRequest (frameResponse (List.replicate 65536 0) [1] [] [])
      ≠ some (List.replicate 65536 0, [1], [], []) :=
  frame_overlong_name_truncates (List.replicate 65536 0) [1] [] []
    (Or.inl (by simp only [List.length_replicate]; omega))

/-! ## Server dispatcher (rpc package, `Server.RegisterService` / `Server.Start`)

The dispatch loop body is embedded as a function of one received datagram
payload. Collaborators that live outside the given source files (the metadata
codec, the RPC element chain, the serializer) are abstracted as capability
fields of `ServerEnv`, mirroring the interfaces through which `Server.Start`
calls them. The type parameter `α` stands for Go `any` (service
implementations, handler results). -/

/-- Metadata bag. Modelled from the spec: a mapping from string keys to ordered
lists of string values (the `metadata` package is not among the given source
files). -/
abbrev Metadata := List (String × List String)

/-- Call context. Modelled from the spec: the context carries the incoming and
outgoing metadata scopes (the `metadata` context helpers are not among the
given source files). -/
structure Ctx where
  incoming : Metadata
  outgoing : Metadata
deriving DecidableEq

/-- Go `context.Background()`: a fresh context with no metadata attached. -/
def backgroundCtx : Ctx := ⟨[], []⟩

/-- Go `metadata.NewIncomingContext(context.Background(), md)`. Modelled from
the spec: attaches the decoded bag as the incoming scope of a fresh context. -/
def newIncomingContext (md : Metadata) : Ctx := ⟨md, []⟩

/-- Go `metadata.FromOutgoingContext(ctx)`. Modelled from the spec: reads the
outgoing metadata scope of a context. -/
def fromOutgoingContext (c : Ctx) : Metadata := c.outgoing

/-- The in-memory RPC request envelope (`element.RPCRequest`): id, service
name, method name, payload. Names and payload are byte strings. -/
structure RPCRequest where
  id : Nat
  serviceName : List Nat
  method : List Nat
  payload : List Nat
deriving DecidableEq

/-- The in-memory RPC response envelope (`element.RPCResponse`): result value
and error. In `Server.Start` the error field is always `none`, because the
handler error is checked (and the iteration abandoned) before the envelope is
built. -/
structure RPCResponse (α : Type) where
  result : α
  error : Option String

/-- An RPC method specification (`MethodDesc`): method name and handler. The
handler receives the service implementation, the incoming context and the
request payload bytes (standing for the decode closure over those bytes), and
returns a result and a new context, or an error. -/
structure MethodDesc (α : Type) where
  methodName : List Nat
  handler : α → Ctx → List Nat → Except String (α × Ctx)

/-- A service descriptor (`ServiceDesc`): implementation value, service name,
and the method-name-keyed map of methods (as an association list). -/
structure ServiceDesc (α : Type) where
  serviceImpl : α
  serviceName : List Nat
  methods : List (List Nat × MethodDesc α)

/-- Capabilities the dispatch loop calls out to, in the shape `Server.Start`
uses them: the RPC element chain (`rpcElementChain.ProcessRequest` /
`ProcessResponse`), the metadata codec (`DecodeHeaders` / `EncodeHeaders`) and
the serializer (`Marshal`). These live outside the given source files. -/
structure ServerEnv (α : Type) where
  processRequest : Ctx → RPCRequest → Except String RPCRequest
  processResponse : Ctx → RPCResponse α → Except String (RPCResponse α)
  decodeHeaders : List Nat → Except String Metadata
  encodeHeaders : Metadata → Except String (List Nat)
  marshal : α → Except String (List Nat)

/-- The stages of one iteration of the `Server.Start` loop body, in the order
the source executes them; the trace of an iteration records which stages ran. -/
inductive Stage where
  | parseFrame
  | processRequest
  | lookupService
  | lookupMethod
  | decodeHeaders
  | invokeHandler
  | processResponse
  | marshalResponse
  | encodeResponseHeaders
  | frameResponse
  | send
deriving DecidableEq

/-- A response transmission: `s.transport.Send(addr.String(), rpcID, framedResp)`. -/
structure SendOp where
  addr : String
  rpcID : Nat
  data : List Nat
deriving DecidableEq

/-- How one loop iteration ends when no response is transmitted. Every
constructor but `panicked` corresponds to a `log.Printf` + `continue`;
`panicked` models the Go runtime panic escaping `parseFramedRequest`, which
crashes `Server.Start` (there is no recover). -/
inductive FailOutcome where
  | panicked
  | elementRequestError
  | unknownService
  | unknownMethod
  | headerDecodeError
  | handlerError
  | elementResponseError
  | marshalError
  | headerEncodeError
deriving DecidableEq

/-- Result of one iteration of the loop body: executed stage trace, the
transmission performed (if any), the failure outcome (if any), and the service
registry afterwards (`Server.Start` never mutates it). -/
structure StepOut (α : Type) where
  trace : List Stage
  sent : Option SendOp
  outcome : Option FailOutcome
  services : List (List Nat × ServiceDesc α)

/-- Embeds `Server.RegisterService`: stores the descriptor under its service
name; the `impl` argument is discarded by the source. Prepending models Go map
assignment, since lookups take the most recent binding. -/
def registerService {α : Type} (services : List (List Nat × ServiceDesc α))
    (desc : ServiceDesc α) (impl : α) : List (List Nat × ServiceDesc α) :=
  (desc.serviceName, desc) :: services

/-- Embeds the body of the receive loop in `Server.Start`, for one datagram
already delivered by the transport as `(data, addr, rpcID)`. Mirrors the
source order: parse the frame, build the request envelope, run the element
chain, look up service then method, decode headers into a fresh incoming
context, invoke the handler, run the element response chain, marshal the
result, encode response headers from the handler context's outgoing metadata,
frame with the (post-chain) request's service and method, and send with the
original `rpcID` to the originating address. -/
def serverStep {α : Type} (env : ServerEnv α)
    (services : List (List Nat × ServiceDesc α))
    (data : List Nat) (addr : String) (rpcID : Nat) : StepOut α :=
  match parseFramedRequest data with
  | none => ⟨[.parseFrame], none, some .panicked, services⟩
  | some (serviceName, methodName, reqHeaderBytes, reqPayloadBytes) =>
    match env.processRequest backgroundCtx
        ⟨rpcID, serviceName, methodName, reqPayloadBytes⟩ with
    | .error _ => ⟨[.parseFrame, .processRequest], none,
        some .elementRequestError, services⟩
    | .ok rpcReq =>
      match services.lookup rpcReq.serviceName with
      | none => ⟨[.parseFrame, .processRequest, .lookupService], none,
          some .unknownService, services⟩
      | some svcDesc =>
        match svcDesc.methods.lookup rpcReq.method with
        | none => ⟨[.parseFrame, .processRequest, .lookupService, .lookupMethod],
            none, some .unknownMethod, services⟩
        | some methodDesc =>
          match env.decodeHeaders reqHeaderBytes with
          | .error _ => ⟨[.parseFrame, .processRequest, .lookupService,
              .lookupMethod, .decodeHeaders], none, some .headerDecodeError, services⟩
          | .ok md =>
            match methodDesc.handler svcDesc.serviceImpl (newIncomingContext md)
                rpcReq.payload with
            | .error _ => ⟨[.parseFrame, .processRequest, .lookupService,
                .lookupMethod, .decodeHeaders, .invokeHandler], none,
                some .handlerError, services⟩
            | .ok (resp, ctx) =>
              match env.processResponse ctx ⟨resp, none⟩ with
              | .error _ => ⟨[.parseFrame, .processRequest, .lookupService,
                  .lookupMethod, .decodeHeaders, .invokeHandler, .processResponse],
                  none, some .elementResponseError, services⟩
              | .ok rpcResp =>
                match env.marshal rpcResp.result with
                | .error _ => ⟨[.parseFrame, .processRequest, .lookupService,
                    .lookupMethod, .decodeHeaders, .invokeHandler, .processResponse,
                    .marshalResponse], none, some .marshalError, services⟩
                | .ok respPayloadBytes =>
                  match env.encodeHeaders (fromOutgoingContext ctx) with
                  | .error _ => ⟨[.parseFrame, .processRequest, .lookupService,
                      .lookupMethod, .decodeHeaders, .invokeHandler,
                      .processResponse, .marshalResponse, .encodeResponseHeaders],
                      none, some .headerEncodeError, services⟩
                  | .ok respHeaderBytes =>
                    ⟨[.parseFrame, .processRequest, .lookupService, .lookupMethod,
                      .decodeHeaders, .invokeHandler, .processResponse,
                      .marshalResponse, .encodeResponseHeaders, .frameResponse,
                      .send],
                      some ⟨addr, rpcID,
                        frameResponse rpcReq.serviceName rpcReq.method
                          respHeaderBytes respPayloadBytes⟩,
                      none, services⟩

/-! ### Concrete instances used by counterexamples and witnesses -/

/-- A concrete method whose handler succeeds, returning the implementation
value plus one and a context with outgoing metadata attached. -/
def echoMethod : MethodDesc Nat :=
  { methodName := [2],
    handler := fun impl ctx _payload =>
      .ok (impl + 1, { ctx with outgoing := [("status", ["ok"])] }) }

/-- A concrete service registered under the one-byte name `[1]`. -/
def echoService : ServiceDesc Nat :=
  { serviceImpl := 10, serviceName := [1], methods := [([2], echoMethod)] }

/-- A registry holding only `echoService`. -/
def servicesEcho : List (List Nat × ServiceDesc Nat) := [([1], echoService)]

/-- A concrete environment in which every collaborator succeeds and the
element chain is the identity. -/
def envEcho : ServerEnv Nat :=
  { processRequest := fun _ r => .ok r
    processResponse := fun _ r => .ok r
    decodeHeaders := fun _ => .ok []
    encodeHeaders := fun md => .ok [md.length]
    marshal := fun n => .ok [n] }

/-- The echo service re-registered under the name `[4]`, for exercising a
request interceptor that rewrites the service name. -/
def renamedEchoService : ServiceDesc Nat :=
  { serviceImpl := 10, serviceName := [4], methods := [([2], echoMethod)] }

/-- A registry holding the renamed echo service. -/
def servicesRenamed : List (List Nat × ServiceDesc Nat) := [([4], renamedEchoService)]

/-- A concrete environment whose request interceptor rewrites the service name
to `[4]` and whose response interceptor increments the result, as §4.H permits
(interceptors may mutate the envelope). -/
def envMutating : ServerEnv Nat :=
  { processRequest := fun _ r => .ok { r with serviceName := [4] }
    processResponse := fun _ r => .ok { r with result := r.result + 1 }
    decodeHeaders := fun _ => .ok []
    encodeHeaders := fun md => .ok [md.length]
    marshal := fun n => .ok [n] }

/-- A concrete method whose handler always returns an error. -/
def failingMethod : MethodDesc Nat :=
  { methodName := [2], handler := fun _ _ _ => .error "boom" }

/-- A concrete service whose only method fails. -/
def failingService : ServiceDesc Nat :=
  { serviceImpl := 0, serviceName := [1], methods := [([2], failingMethod)] }

/-- A registry holding only `failingService`. -/
def servicesFailing : List (List Nat × ServiceDesc Nat) := [([1], failingService)]

/-! ### Claim theorems about the dispatcher -/

/-- C2. Against the claim: on a buffer whose length prefix points past the end
(and on a buffer shorter than two bytes) the decoder does not return a
MalformedFrame error — it panics (modelled by `none`, the Go slice-bounds
panic), which escapes the `Server.Start` loop and crashes the server instead
of letting it continue. -/
theorem parse_panics_on_truncated_frame :
    parseFramedRequest [] = none ∧
    parseFramedRequest [5, 0] = none ∧
    (serverStep envEcho servicesEcho [5, 0] "peer" 1).outcome
      = some FailOutcome.panicked ∧
    (serverStep envEcho servicesEcho [5, 0] "peer" 1).sent = none := by
  refine ⟨rfl, rfl, rfl, rfl⟩

/-- The dispatch order asserted by the claim, as a predicate on an iteration's
stage trace: frame parse, then registry lookup, then header decoding, then the
request interceptor chain, and only then the handler. -/
def claimedDispatchOrder (t : List Stage) : Prop :=
  Stage.invokeHandler ∈ t →
    t.indexOf Stage.parseFrame < t.indexOf Stage.lookupService ∧
    t.indexOf Stage.lookupMethod < t.indexOf Stage.decodeHeaders ∧
    t.indexOf Stage.decodeHeaders < t.indexOf Stage.processRequest ∧
    t.indexOf Stage.processRequest < t.indexOf Stage.invokeHandler

/-- C3 counterexample: on a concrete well-formed request that reaches the
handler, the executed trace runs the request interceptor chain before the
registry lookup and the header decoding, so the claimed order fails. -/
theorem dispatch_order_counterexample :
    ¬ claimedDispatchOrder
      (serverStep envEcho servicesEcho (frameResponse [1] [2] [] [3])
        "peer" 1).trace := by
  unfold claimedDispatchOrder
  decide

/-- C3 (amended). The dispatcher executes its stages in the source's order:
parse the frame, then run the request interceptor chain, then look up the
service and the method, then decode the headers into a fresh incoming context,
and only after all of these invoke the handler. -/
theorem dispatch_stage_order {α : Type} (env : ServerEnv α)
    (services : List (List Nat × ServiceDesc α)) (data : List Nat)
    (addr : String) (rpcID : Nat)
    (h : Stage.invokeHandler ∈ (serverStep env services data addr rpcID).trace) :
    (serverStep env services data addr rpcID).trace.take 6
      = [.parseFrame, .processRequest, .lookupService, .lookupMethod,
         .decodeHeaders, .invokeHandler] := by
  unfold serverStep at h ⊢
  cases hp : parseFramedRequest data with
  | none => simp only [hp] at h; exact absurd h (by decide)
  | some q =>
    obtain ⟨s, m, hb, pb⟩ := q
    simp only [hp] at h ⊢
    cases hc : env.processRequest backgroundCtx ⟨rpcID, s, m, pb⟩ with
    | error e => simp only [hc] at h; exact absurd h (by decide)
    | ok req =>
      simp only [hc] at h ⊢
      cases hs : services.lookup req.serviceName with
      | none => simp only [hs] at h; exact absurd h (by decide)
      | some sd =>
        simp only [hs] at h ⊢
        cases hm : sd.methods.lookup req.method with
        | none => simp only [hm] at h; exact absurd h (by decide)
        | some md =>
          simp only [hm] at h ⊢
          cases hd : env.decodeHeaders hb with
          | error e => simp only [hd] at h; exact absurd h (by decide)
          | ok mdata =>
            simp only [hd] at h ⊢
            cases hh : md.handler sd.serviceImpl (newIncomingContext mdata)
                req.payload with
            | error e => simp only [hh]; rfl
            | ok rc =>
              obtain ⟨resp, ctx⟩ := rc
              simp only [hh]
              cases hpr : env.processResponse ctx ⟨resp, none⟩ with
              | error e => simp only [hpr]; rfl
              | ok r2 =>
                simp only [hpr]
                cases hmar : env.marshal r2.result with
                | error e => simp only [hmar]; rfl
                | ok pb2 =>
                  simp only [hmar]
                  cases he : env.encodeHeaders (fromOutgoingContext ctx) with
                  | error e => simp only [he]; rfl
                  | ok hb2 => simp only [he]; rfl

/-- C3 witness: the amended order evaluated on a concrete request that reaches
the handler. -/
theorem dispatch_stage_order_witness :
    Stage.invokeHandler ∈ (serverStep envEcho servicesEcho
      (frameResponse [1] [2] [] [3]) "peer" 1).trace ∧
    (serverStep envEcho servicesEcho (frameResponse [1] [2] [] [3])
      "peer" 1).trace.take 6
      = [.parseFrame, .processRequest, .lookupService, .lookupMethod,
         .decodeHeaders, .invokeHandler] :=
  ⟨by decide, dispatch_stage_order envEcho servicesEcho _ "peer" 1 (by decide)⟩

/-- C5. On a registry miss — unknown service, or unknown method of a known
service — the iteration logs the miss (the `unknownService` / `unknownMethod`
outcome), transmits nothing, and leaves the registry unchanged. -/
theorem lookup_miss_drops {α : Type} (env : ServerEnv α)
    (services : List (List Nat × ServiceDesc α)) (data : List Nat)
    (addr : String) (rpcID : Nat) (s m hb pb : List Nat) (req : RPCRequest)
    (hp : parseFramedRequest data = some (s, m, hb, pb))
    (hc : env.processRequest backgroundCtx ⟨rpcID, s, m, pb⟩ = .ok req)
    (hmiss : services.lookup req.serviceName = none ∨
      ∃ sd, services.lookup req.serviceName = some sd ∧
        sd.methods.lookup req.method = none) :
    (serverStep env services data addr rpcID).sent = none ∧
    (serverStep env services data addr rpcID).services = services ∧
    ((serverStep env services data addr rpcID).outcome
        = some FailOutcome.unknownService ∨
     (serverStep env services data addr rpcID).outcome
        = some FailOutcome.unknownMethod) := by
  rcases hmiss with hmiss | ⟨sd, hsd, hmm⟩
  · have heq : serverStep env services data addr rpcID
        = ⟨[.parseFrame, .processRequest, .lookupService], none,
            some .unknownService, services⟩ := by
      simp only [serverStep, hp, hc, hmiss]
    rw [heq]
    exact ⟨rfl, rfl, Or.inl rfl⟩
  · have heq : serverStep env services data addr rpcID
        = ⟨[.parseFrame, .processRequest, .lookupService, .lookupMethod], none,
            some .unknownMethod, services⟩ := by
      simp only [serverStep, hp, hc, hsd, hmm]
    rw [heq]
    exact ⟨rfl, rfl, Or.inr rfl⟩

/-- C5 witness: a request for the unregistered service name `[9]` is dropped
with an unknown-service outcome and no transmission. -/
theorem lookup_miss_drops_witness :
    (serverStep envEcho servicesEcho (frameResponse [9] [2] [] []) "peer" 1).sent
      = none ∧
    (serverStep envEcho servicesEcho (frameResponse [9] [2] [] []) "peer" 1).services
      = servicesEcho ∧
    ((serverStep envEcho servicesEcho (frameResponse [9] [2] [] []) "peer"
        1).outcome = some FailOutcome.unknownService ∨
     (serverStep envEcho servicesEcho (frameResponse [9] [2] [] []) "peer"
        1).outcome = some FailOutcome.unknownMethod) :=
  lookup_miss_drops envEcho servicesEcho (frameResponse [9] [2] [] []) "peer" 1
    [9] [2] [] [] ⟨1, [9], [2], []⟩ rfl rfl (Or.inl rfl)

/-- C6. When the handler returns an error, the iteration stops at the handler
stage: the error is logged (the `handlerError` outcome), nothing is sent, and
neither the response interceptor chain, nor serialization, nor transmission
runs. -/
theorem handler_error_drops {α : Type} (env : ServerEnv α)
    (services : List (List Nat × ServiceDesc α)) (data : List Nat)
    (addr : String) (rpcID : Nat) (s m hb pb : List Nat) (req : RPCRequest)
    (sd : ServiceDesc α) (md : MethodDesc α) (mdata : Metadata) (e : String)
    (hp : parseFramedRequest data = some (s, m, hb, pb))
    (hc : env.processRequest backgroundCtx ⟨rpcID, s, m, pb⟩ = .ok req)
    (hs : services.lookup req.serviceName = some sd)
    (hm : sd.methods.lookup req.method = some md)
    (hd : env.decodeHeaders hb = .ok mdata)
    (hh : md.handler sd.serviceImpl (newIncomingContext mdata) req.payload
      = .error e) :
    serverStep env services data addr rpcID
      = ⟨[.parseFrame, .processRequest, .lookupService, .lookupMethod,
          .decodeHeaders, .invokeHandler], none, some .handlerError, services⟩ ∧
    Stage.processResponse ∉ (serverStep env services data addr rpcID).trace ∧
    Stage.marshalResponse ∉ (serverStep env services data addr rpcID).trace ∧
    Stage.send ∉ (serverStep env services data addr rpcID).trace := by
  have heq : serverStep env services data addr rpcID
      = ⟨[.parseFrame, .processRequest, .lookupService, .lookupMethod,
          .decodeHeaders, .invokeHandler], none, some .handlerError, services⟩ := by
    simp only [serverStep, hp, hc, hs, hm, hd, hh]
  exact ⟨heq, by rw [heq]; simp, by rw [heq]; simp, by rw [heq]; simp⟩

/-- C6 witness: a concrete failing handler drops the request with nothing
sent and no post-handler stages. -/
theorem handler_error_drops_witness :
    serverStep envEcho servicesFailing (frameResponse [1] [2] [] []) "peer" 2
      = ⟨[.parseFrame, .processRequest, .lookupService, .lookupMethod,
          .decodeHeaders, .invokeHandler], none, some .handlerError,
          servicesFailing⟩ ∧
    Stage.processResponse ∉ (serverStep envEcho servicesFailing
      (frameResponse [1] [2] [] []) "peer" 2).trace ∧
    Stage.marshalResponse ∉ (serverStep envEcho servicesFailing
      (frameResponse [1] [2] [] []) "peer" 2).trace ∧
    Stage.send ∉ (serverStep envEcho servicesFailing
      (frameResponse [1] [2] [] []) "peer" 2).trace :=
  handler_error_drops envEcho servicesFailing (frameResponse [1] [2] [] [])
    "peer" 2 [1] [2] [] [] ⟨2, [1], [2], []⟩ failingService failingMethod []
    "boom" rfl rfl rfl rfl rfl rfl

/-- C4 counterexample: with a request interceptor that rewrites the service
name and a response interceptor that rewrites the result — both permitted by
§4.H — the transmitted frame carries the rewritten name `[4]` and the
rewritten marshalled result `[12]`, not the original name `[1]` and marshalled
handler result `[11]` that the claim prescribes. -/
theorem response_frame_counterexample :
    (serverStep envMutating servicesRenamed (frameResponse [1] [2] [] [])
      "peer" 5).sent
      = some ⟨"peer", 5, frameResponse [4] [2] [1] [12]⟩ ∧
    (serverStep envMutating servicesRenamed (frameResponse [1] [2] [] [])
      "peer" 5).sent
      ≠ some ⟨"peer", 5, frameResponse [1] [2] [1] [11]⟩ := by
  refine ⟨rfl, by decide⟩

/-- C4 (amended). On a fully successful iteration the server transmits, with
the original `rpcID` and to the originating peer address, the frame built from
the request interceptor chain's service and method names, the encoded outgoing
metadata of the context returned by the handler, and the marshalled result as
emitted by the response interceptor chain (equal to the original names and the
handler's result whenever the interceptors leave them unchanged). -/
theorem response_send_shape {α : Type} (env : ServerEnv α)
    (services : List (List Nat × ServiceDesc α)) (data : List Nat)
    (addr : String) (rpcID : Nat) (s m hb pb : List Nat) (req : RPCRequest)
    (sd : ServiceDesc α) (md : MethodDesc α) (mdata : Metadata) (resp : α)
    (ctx : Ctx) (rpcResp : RPCResponse α) (respPayload respHeader : List Nat)
    (hp : parseFramedRequest data = some (s, m, hb, pb))
    (hc : env.processRequest backgroundCtx ⟨rpcID, s, m, pb⟩ = .ok req)
    (hs : services.lookup req.serviceName = some sd)
    (hm : sd.methods.lookup req.method = some md)
    (hd : env.decodeHeaders hb = .ok mdata)
    (hh : md.handler sd.serviceImpl (newIncomingContext mdata) req.payload
      = .ok (resp, ctx))
    (hpr : env.processResponse ctx ⟨resp, none⟩ = .ok rpcResp)
    (hmar : env.marshal rpcResp.result = .ok respPayload)
    (he : env.encodeHeaders (fromOutgoingContext ctx) = .ok respHeader) :
    (serverStep env services data addr rpcID).sent
      = some ⟨addr, rpcID,
          frameResponse req.serviceName req.method respHeader respPayload⟩ ∧
    (serverStep env services data addr rpcID).outcome = none := by
  have heq : serverStep env services data addr rpcID
      = ⟨[.parseFrame, .processRequest, .lookupService, .lookupMethod,
          .decodeHeaders, .invokeHandler, .processResponse, .marshalResponse,
          .encodeResponseHeaders, .frameResponse, .send],
          some ⟨addr, rpcID,
            frameResponse req.serviceName req.method respHeader respPayload⟩,
          none, services⟩ := by
    simp only [serverStep, hp, hc, hs, hm, hd, hh, hpr, hmar, he]
  rw [heq]
  exact ⟨rfl, rfl⟩

/-- C4 witness: the amended send shape evaluated on the concrete mutating
environment. -/
theorem response_send_shape_witness :
    (serverStep envMutating servicesRenamed (frameResponse [1] [2] [] [])
      "peer" 5).sent
      = some ⟨"peer", 5, frameResponse [4] [2] [1] [12]⟩ ∧
    (serverStep envMutating servicesRenamed (frameResponse [1] [2] [] [])
      "peer" 5).outcome = none :=
  response_send_shape envMutating servicesRenamed (frameResponse [1] [2] [] [])
    "peer" 5 [1] [2] [] [] ⟨5, [4], [2], []⟩ renamedEchoService echoMethod []
    11 ⟨[], [("status", ["ok"])]⟩ ⟨12, none⟩ [12] [1]
    rfl rfl rfl rfl rfl rfl rfl rfl rfl

/-- C8. The `impl` argument of `RegisterService` has no effect: registration
stores only the descriptor, dispatch invokes the handler with the descriptor's
`ServiceImpl` field, so any two `impl` values yield the same registry and
identical dispatch behaviour. -/
theorem register_ignores_impl {α : Type}
    (services : List (List Nat × ServiceDesc α)) (desc : ServiceDesc α)
    (impl₁ impl₂ : α) :
    registerService services desc impl₁ = registerService services desc impl₂ ∧
    ∀ (env : ServerEnv α) (data : List Nat) (addr : String) (rpcID : Nat),
      serverStep env (registerService services desc impl₁) data addr rpcID
        = serverStep env (registerService services desc impl₂) data addr rpcID :=
  ⟨rfl, fun _ _ _ _ => rfl⟩

/-- C8 witness: two different `impl` values produce the same registration and
the same dispatch on a concrete request. -/
theorem register_ignores_impl_witness :
    registerService ([] : List (List Nat × ServiceDesc Nat)) echoService 0
      = registerService [] echoService 1 ∧
    serverStep envEcho (registerService [] echoService 0)
        (frameResponse [1] [2] [] [3]) "peer" 1
      = serverStep envEcho (registerService [] echoService 1)
        (frameResponse [1] [2] [] [3]) "peer" 1 :=
  ⟨(register_ignores_impl [] echoService 0 1).1,
   (register_ignores_impl [] echoService 0 1).2 envEcho
     (frameResponse [1] [2] [] [3]) "peer" 1⟩

/-! ## Address resolver (balancer package, `Resolver.ResolveUDPTarget`)

The Go standard library collaborators (`net.SplitHostPort`, `strconv.Atoi`,
`net.ParseIP`, `net.LookupIP`) and the balancer are abstracted as capability
fields of `NetLib`; theorems constrain them only with their documented
behaviour at the relevant inputs. IP addresses are byte strings; ports are
`Int` because Go's `strconv.Atoi` yields a signed `int` that the resolver
never range-checks. -/

/-- Go `net.IPv4zero = net.IPv4(0, 0, 0, 0)`: the 16-byte IPv4-in-IPv6 form of
the wildcard address `0.0.0.0`. -/
def IPv4zero : List Nat := [0, 0, 0, 0, 0, 0, 0, 0, 0, 0, 255, 255, 0, 0, 0, 0]

/-- Go `net.UDPAddr` as used by the resolver: an IP and a port (the zone is
never set by this code). -/
structure UDPAddr where
  ip : List Nat
  port : Int
deriving DecidableEq

/-- The error exits of `ResolveUDPTarget`, in source order: the `fmt.Errorf`
for an unsplittable address, an unparsable port, a failed or empty DNS lookup,
and a balancer returning nil. -/
inductive ResolveError where
  | invalidAddr
  | invalidPort
  | dnsLookupFailed
  | balancerFailed
deriving DecidableEq

/-- Go `strings.CutPrefix(addr, ":")`: strips a leading colon, or fails. -/
def cutPrefixColon (addr : String) : Option String :=
  match addr.data with
  | ':' :: rest => some (String.mk rest)
  | _ => none

/-- The standard-library and balancer capabilities `ResolveUDPTarget` calls:
`net.SplitHostPort` (`none` models a non-nil error), `strconv.Atoi`,
`net.ParseIP` (`none` models a nil IP), `net.LookupIP` (`none` models a
non-nil error) and `balancer.Pick` (`none` models a nil choice). -/
structure NetLib where
  splitHostPort : String → Option (String × String)
  atoi : String → Option Int
  parseIP : String → Option (List Nat)
  lookupIP : String → Option (List (List Nat))
  balancerPick : String → List (List Nat) → Option (List Nat)

/-- Embeds `Resolver.ResolveUDPTarget`: empty address binds to `0.0.0.0:0`;
otherwise split host and port (falling back to stripping a leading colon when
the split errors), parse the port, bind to the wildcard when the host is
empty, use a literal IP when one parses, and otherwise resolve via DNS and the
balancer. -/
def resolveUDPTarget (nl : NetLib) (addr : String) : Except ResolveError UDPAddr :=
  if addr = "" then .ok { ip := IPv4zero, port := 0 }
  else
    match (match nl.splitHostPort addr with
      | some hostPort => some hostPort
      | none =>
        match cutPrefixColon addr with
        | some after => some ("", after)
        | none => none) with
    | none => .error .invalidAddr
    | some (host, portStr) =>
      match nl.atoi portStr with
      | none => .error .invalidPort
      | some port =>
        if host = "" then .ok { ip := IPv4zero, port := port }
        else
          match nl.parseIP host with
          | some ip => .ok { ip := ip, port := port }
          | none =>
            match nl.lookupIP host with
            | none => .error .dnsLookupFailed
            | some ips =>
              if ips.isEmpty then .error .dnsLookupFailed
              else
                match nl.balancerPick host ips with
                | none => .error .balancerFailed
                | some chosen => .ok { ip := chosen, port := port }

/-- C7. Bind-form and literal-form resolution: an address `":p"` whose port
parses resolves to the wildcard `0.0.0.0` with port `p` and no error —
whether `net.SplitHostPort` handles it or the colon-stripping fallback does —
and a literal `"host:p"` whose host parses as an IP resolves to that IP with
port `p` and no error. -/
theorem resolve_literal_forms (nl : NetLib) :
    (∀ (pstr : String) (p : Int),
      (nl.splitHostPort (":" ++ pstr) = some ("", pstr) ∨
        nl.splitHostPort (":" ++ pstr) = none) →
      nl.atoi pstr = some p →
      resolveUDPTarget nl (":" ++ pstr) = .ok { ip := IPv4zero, port := p }) ∧
    (∀ (host pstr : String) (p : Int) (ip : List Nat),
      host ≠ "" →
      nl.splitHostPort (host ++ ":" ++ pstr) = some (host, pstr) →
      nl.atoi pstr = some p →
      nl.parseIP host = some ip →
      resolveUDPTarget nl (host ++ ":" ++ pstr) = .ok { ip := ip, port := p }) := by
  constructor
  · intro pstr p hsplit hatoi
    have hne : (":" ++ pstr) ≠ "" := by
      intro h
      have h2 := congrArg String.data h
      simp [String.data_append] at h2
    have hcut : cutPrefixColon (":" ++ pstr) = some pstr := rfl
    rcases hsplit with hsplit | hsplit
    · simp only [resolveUDPTarget, if_neg hne, hsplit, hatoi, if_true]
    · simp only [resolveUDPTarget, if_neg hne, hsplit, hcut, hatoi, if_true]
  · intro host pstr p ip hhost hsplit hatoi hip
    have hne : (host ++ ":" ++ pstr) ≠ "" := by
      intro h
      have h2 := congrArg String.data h
      simp [String.data_append] at h2
    simp only [resolveUDPTarget, if_neg hne, hsplit, hatoi, if_neg hhost, hip]

/-- A concrete `NetLib` whose behaviour on two addresses follows the Go
standard library: `":7"` splits into an empty host and port `"7"`, and
`"1.2.3.4:8"` splits into the literal host and port `"8"`. -/
def netLibDemo : NetLib :=
  { splitHostPort := fun s =>
      if s = ":7" then some ("", "7")
      else if s = "1.2.3.4:8" then some ("1.2.3.4", "8") else none
    atoi := fun s => if s = "7" then some 7 else if s = "8" then some 8 else none
    parseIP := fun s => if s = "1.2.3.4" then some [1, 2, 3, 4] else none
    lookupIP := fun _ => none
    balancerPick := fun _ _ => none }

/-- C7 witness: both literal forms resolved through the concrete `NetLib`. -/
theorem resolve_literal_forms_witness :
    resolveUDPTarget netLibDemo (":" ++ "7") = .ok { ip := IPv4zero, port := 7 } ∧
    resolveUDPTarget netLibDemo ("1.2.3.4" ++ ":" ++ "8")
      = .ok { ip := [1, 2, 3, 4], port := 8 } :=
  ⟨(resolve_literal_forms netLibDemo).1 "7" 7 (Or.inl (by decide)) (by decide),
   (resolve_literal_forms netLibDemo).2 "1.2.3.4" "8" 8 [1, 2, 3, 4]
     (by decide) (by decide) (by decide) (by decide)⟩

/-- C10. The empty address string resolves to the wildcard `0.0.0.0` with port
`0` and no error, for every collaborator behaviour. -/
theorem resolve_empty_addr (nl : NetLib) :
    resolveUDPTarget nl "" = .ok { ip := IPv4zero, port := 0 } := rfl

/-- C10 witness: the empty address evaluated through the concrete `NetLib`. -/
theorem resolve_empty_addr_witness :
    resolveUDPTarget netLibDemo "" = .ok { ip := IPv4zero, port := 0 } :=
  resolve_empty_addr netLibDemo
